import Mathlib

/-!
Verification development for the X scraper (src/scraper.py).

The Python source is shallowly embedded: pure string processing is translated
to executable Lean functions over `List Char` / `String`; the Selenium-driven
parts (browser queries, DOM lookups) are modelled by explicit environment
structures that record what each query the code makes would return; Python
exceptions are modelled with `Except Unit`; CPython `float` parsing of
digit-and-dot strings is modelled with exact rational arithmetic (binary
rounding of IEEE floats is not modelled, nor is the overflow-to-infinity of
astronomically long digit strings); `hashlib.sha1().hexdigest()` is modelled
by a fixed deterministic stand-in function of the UTF-8 byte sequence (the
development relies only on determinism and on the "sha1-" marker, never on
digest values).  Python regular expressions used in the source are compiled
by hand into deterministic scanners; `\d` and `\s` are modelled by the ASCII
`Char.isDigit` / `Char.isWhitespace` (the source uses Unicode-aware classes,
which differ only on non-ASCII input and on the rare whitespace controls).
-/

/-! ## Shorthand Numeric Parser (`Scraper._shorthand_to_int`, scraper.py 599-624) -/

/-- Value of a digit string, as Python `int` of a digit-only string. -/
def digitsVal (l : List Char) : Nat :=
  l.foldl (fun a c => 10 * a + (c.toNat - 48)) 0

/-- The fractional part of a digit-and-dot string: the digits after its
(single) dot. -/
def fracPart (a : List Char) : List Char :=
  (a.dropWhile (fun c => !(c == '.'))).tail

/-- CPython `float(a)` for a non-empty string of digits and dots, modelled
exactly: it succeeds iff `a` has at most one dot and at least one digit, and
then denotes the non-negative decimal value `fst / snd`, with `snd` the
power of ten given by the number of fractional digits.  (Binary rounding of
IEEE floats is not modelled; the value is kept exact.) -/
def pyFloatDigitsDots (a : List Char) : Option (Nat × Nat) :=
  if a.count '.' = 0 then some (digitsVal a, 1)
  else if a.count '.' = 1 ∧ a.any Char.isDigit then
    some (digitsVal (a.takeWhile (fun c => !(c == '.'))) * 10 ^ (fracPart a).length
            + digitsVal (fracPart a),
          10 ^ (fracPart a).length)
  else none

/-- The suffix class `[kKmM]` of the shorthand pattern. -/
def kmSuffix (c : Char) : Bool := c == 'k' || c == 'K' || c == 'm' || c == 'M'

/-- Matcher for the anchored pattern used by `_shorthand_to_int`:
it matches a string of the shape `[\d.]+` then `\s*` then an optional
single `[kKmM]`, returning the numeric group and the optional suffix.
The numeric group is necessarily the maximal digit-and-dot run, since
no digit or dot can start the whitespace run or be the suffix. -/
def matchShorthand (l : List Char) : Option (List Char × Option Char) :=
  let a := l.takeWhile (fun c => c.isDigit || c == '.')
  if a = [] then none
  else
    let rest := (l.drop a.length).dropWhile Char.isWhitespace
    match rest with
    | [] => some (a, none)
    | [c] => if kmSuffix c then some (a, some c) else none
    | _ => none

/-- Python `str.strip()` on a character list. -/
def pyStripChars (l : List Char) : List Char :=
  ((l.dropWhile Char.isWhitespace).reverse.dropWhile Char.isWhitespace).reverse

/-- The preprocessing `s.replace(",", "").strip()` of `_shorthand_to_int`. -/
def shorthandPre (s : String) : List Char :=
  pyStripChars (s.data.filter (fun c => !(c == ',')))

/-- `Scraper._shorthand_to_int`.  `Except.error ()` models an uncaught Python
exception: on the matched path `float(m.group(1))` is not guarded by any
`try`, so an invalid numeric group (e.g. more than one dot) raises out of
the function.  The fallback path wraps `int(...)` in `try/except`.
Python `int(x)` truncates toward zero; the values here are non-negative, so
truncation is floor division, computed exactly on the decimal
representation: `int((n/d) * m) = n * m / d` in natural-number division. -/
def shorthand_to_int (s : String) : Except Unit (Option Int) :=
  if s.data = [] then Except.ok none
  else
    match matchShorthand (shorthandPre s) with
    | none =>
      if (shorthandPre s).filter Char.isDigit = [] then Except.ok none
      else Except.ok (some (digitsVal ((shorthandPre s).filter Char.isDigit) : Int))
    | some (a, suf) =>
      match pyFloatDigitsDots a with
      | none => Except.error ()
      | some nd =>
        match suf with
        | some c =>
          if c == 'k' || c == 'K' then Except.ok (some ((nd.1 * 1000 / nd.2 : Nat) : Int))
          else Except.ok (some ((nd.1 * 1000000 / nd.2 : Nat) : Int))
        | none => Except.ok (some ((nd.1 / nd.2 : Nat) : Int))

/-- The character class `[\d,.]` of `_parse_count_from_text`. -/
def countClass (c : Char) : Bool := c.isDigit || c == ',' || c == '.'

/-- Match of the unanchored pattern `([\d,.]+[kKmM]?)` at the current position:
a maximal non-empty `[\d,.]` run, optionally extended by one suffix letter. -/
def countTokenAt (l : List Char) : Option (List Char) :=
  let run := l.takeWhile countClass
  if run = [] then none
  else
    match l.drop run.length with
    | c :: _ => if kmSuffix c then some (run ++ [c]) else some run
    | [] => some run

/-- Leftmost search for `([\d,.]+[kKmM]?)`, as `re.search` does. -/
def countTokenSearch : List Char → Option (List Char)
  | [] => none
  | c :: rest =>
    match countTokenAt (c :: rest) with
    | some t => some t
    | none => countTokenSearch rest

/-- `Scraper._parse_count_from_text` (scraper.py 626-638): find the first
shorthand token in the text and hand it to `_shorthand_to_int`.  An
exception raised by `_shorthand_to_int` propagates (the function itself
has no handler); callers guard it. -/
def parse_count_from_text (text : String) : Except Unit (Option Int) :=
  if text.data = [] then Except.ok none
  else
    match countTokenSearch text.data with
    | some tok => shorthand_to_int (String.mk tok)
    | none => Except.ok none

/-- A Python `try: x = e except: x = None` around a count sub-extraction. -/
def pyCatch (e : Except Unit (Option Int)) : Option Int :=
  match e with
  | Except.ok v => v
  | Except.error _ => none

/-! ## Fingerprint Resolver (inside `ensure_min_tweets_loaded`, scraper.py 367-396) -/

/-- The literal part of the pattern `/status/(\d+)`. -/
def statusPat : List Char := "/status/".data

/-- Match of `/status/(\d+)` at the current position: the 8 literal characters
followed by a maximal non-empty digit run (the capture group). -/
def statusMatchAt (l : List Char) : Option (List Char) :=
  if l.take 8 = statusPat then
    let ds := (l.drop 8).takeWhile Char.isDigit
    if ds = [] then none else some ds
  else none

/-- Leftmost search for `/status/(\d+)`, as `re.search` does. -/
def statusScan : List Char → Option (List Char)
  | [] => none
  | c :: rest =>
    match statusMatchAt (c :: rest) with
    | some ds => some ds
    | none => statusScan rest

/-- Digits of the first `/status/<digits>` occurrence in a string, or `none`. -/
def statusDigits (s : String) : Option String :=
  (statusScan s.data).map (fun l => String.mk l)

/-- One rendered tweet element, as the code observes it: its serialized
markup (`get_attribute("outerHTML") or ""`) and, separately, the resolved
`href` property of the first descendant `a[contains(@href, "/status/")]`
(`none` when the XPath lookup raises `NoSuchElementException`).  The two are
independent inputs because the DOM query returns the browser-resolved URL
(dot-segments normalised, made absolute), which need not occur literally in
the serialized markup. -/
structure DomElement where
  outerHTML : String
  statusAnchorHref : Option String
deriving DecidableEq, Repr

/-- Stand-in for `hashlib.sha1(...).hexdigest()`: a fixed deterministic
function of the UTF-8 byte sequence.  The development uses only that it is a
function of the bytes (determinism) and that fingerprints built from it carry
the distinguishing marker; no property of real SHA-1 digests is used. -/
def sha1HexModel (s : String) : String :=
  String.mk (Nat.toDigits 16
    ((s.toUTF8.toList).foldl (fun a b => (a * 131 + b.toNat) % 1000003) 5381))

/-- The three-tier fingerprint of one element (scraper.py 367-391):
regex over the serialized markup, then the resolved href of a descendant
status anchor, then the marker-prefixed hash of the markup. -/
def fingerprint (e : DomElement) : String :=
  match statusDigits e.outerHTML with
  | some d => d
  | none =>
    match e.statusAnchorHref with
    | some href =>
      match statusDigits href with
      | some d => d
      | none => "sha1-" ++ sha1HexModel e.outerHTML
    | none => "sha1-" ++ sha1HexModel e.outerHTML

/-! ## Incremental Collector (`ensure_min_tweets_loaded`, scraper.py 336-443) -/

/-- `set.add` on the list model of a Python set of strings. -/
def setInsert (x : String) (l : List String) : List String :=
  if x ∈ l then l else x :: l

/-- The per-round fingerprinting loop: fingerprint every currently rendered
element and add it to `seen`. -/
def addFingerprints (es : List DomElement) (l : List String) : List String :=
  es.foldl (fun acc e => setInsert (fingerprint e) acc) l

/-- Result of the scroll loop: the returned unique count and the number of
loop-body executions (rounds) that were performed. -/
structure LoopResult where
  count : Nat
  rounds : Nat
deriving DecidableEq, Repr

/-- The `while scrolls < max_scrolls` loop of `ensure_min_tweets_loaded`,
with `fuel = max_scrolls - scrolls` making termination structural.  `src i`
is the list of elements the driver enumerates at the iteration whose scroll
counter is `i`.  Mirrors the source: merge fingerprints, return on reaching
`min_count`, update the stall counter (increment when the unique count did
not grow, reset on growth), break once it reaches 6, else continue. -/
def ensureAux (src : Nat → List DomElement) (minCount : Nat) :
    Nat → Nat → List String → Nat → Nat → LoopResult
  | 0, _i, seen, _last, _stable => ⟨seen.length, 0⟩
  | fuel+1, i, seen, last, stable =>
    let seen2 := addFingerprints (src i) seen
    let c := seen2.length
    if minCount ≤ c then ⟨c, 1⟩
    else
      let stable2 := if c ≤ last then stable + 1 else 0
      if 6 ≤ stable2 then ⟨c, 1⟩
      else
        let r := ensureAux src minCount fuel (i+1) seen2 c stable2
        ⟨r.count, r.rounds + 1⟩

/-- `Scraper.ensure_min_tweets_loaded`. -/
def ensure_min_tweets_loaded (src : Nat → List DomElement)
    (minCount maxScrolls : Nat) : LoopResult :=
  ensureAux src minCount maxScrolls 0 [] 0 0

/-- The `seen` set as it stands after the merge of round `i`. -/
def seenUpto (src : Nat → List DomElement) : Nat → List String
  | 0 => addFingerprints (src 0) []
  | i+1 => addFingerprints (src (i+1)) (seenUpto src i)

/-- Cumulative unique-fingerprint count after round `i`. -/
def cumUnique (src : Nat → List DomElement) (i : Nat) : Nat :=
  (seenUpto src i).length

/-- The `seen` set at entry of round `i`. -/
def seenBefore (src : Nat → List DomElement) : Nat → List String
  | 0 => []
  | i+1 => seenUpto src i

/-- The `last_seen_count` variable at entry of round `i`. -/
def cumBefore (src : Nat → List DomElement) : Nat → Nat
  | 0 => 0
  | i+1 => cumUnique src i

/-- The `stable_rounds` value right after round `i` updates it (on rounds
that did not return early). -/
def stableAfter (src : Nat → List DomElement) : Nat → Nat
  | 0 => if cumUnique src 0 ≤ 0 then 1 else 0
  | i+1 => if cumUnique src (i+1) ≤ cumUnique src i then stableAfter src i + 1 else 0

/-- The `stable_rounds` value at entry of round `i`. -/
def stableBefore (src : Nat → List DomElement) : Nat → Nat
  | 0 => 0
  | i+1 => stableAfter src i

/-- Whether round `i` triggers a termination condition: the target count is
reached, or the stall counter reaches 6 at this round. -/
def stopB (src : Nat → List DomElement) (minC i : Nat) : Bool :=
  decide (minC ≤ cumUnique src i) || decide (6 ≤ stableAfter src i)

/-! ## Container Capture (`grab_entire_div_html`, scraper.py 445-493) -/

/-- Count of non-overlapping occurrences of the non-empty pattern
`p0 :: ps`, as Python `str.count`, scanning left to right and skipping over
each match.  The fuel argument (at least the list length) makes the
recursion structural; each step consumes at least one character, so fuel
equal to the scanned list's length never runs out. -/
def countSubFuel (p0 : Char) (ps : List Char) : Nat → List Char → Nat
  | 0, _ => 0
  | _, [] => 0
  | fuel+1, c :: rest =>
    if (c :: rest).take (ps.length + 1) = p0 :: ps then
      1 + countSubFuel p0 ps fuel (rest.drop ps.length)
    else
      countSubFuel p0 ps fuel rest

/-- Python `html.count(pat)` for a non-empty `pat`. -/
def countSub (pat s : String) : Nat :=
  match pat.data with
  | [] => 0
  | c :: cs => countSubFuel c cs s.data.length s.data

/-- The environment `grab_entire_div_html` queries: the `outerHTML` captured
by each container selector in order (`none` when the wait raised or the
attribute was `None`), and the `outerHTML` of every individually enumerated
`[data-testid="tweet"]` element. -/
structure CaptureEnv where
  selHtml : List (Option String)
  tweets : List String
deriving Repr

/-- The selector loop: accept the first capture that exists and has length
greater than 50. -/
def firstAccepted : List (Option String) → Option String
  | [] => none
  | none :: rest => firstAccepted rest
  | some s :: rest => if 50 < s.length then some s else firstAccepted rest

/-- The synthesized wrapper blob: the concatenation (newline-joined) of every
enumerated tweet markup inside the wrapper div.  `\x27` is the single-quote
character of the source literal. -/
def wrapperOf (tweets : List String) : String :=
  String.intercalate "\n" ("<div id=\x27x-scraper-wrapper\x27>" :: tweets ++ ["</div>"])

/-- `Scraper.grab_entire_div_html`: capture a container, then discard it for
the synthesized wrapper when tweets were enumerated and the capture holds
fewer than `max 10 (tweets/4)` item tags; when no capture was accepted the
wrapper is built unconditionally.  The wrapper string is never empty, so the
final `if not html: return None` of the source never fires. -/
def grab_entire_div_html (env : CaptureEnv) : Option String :=
  match firstAccepted env.selHtml with
  | none => some (wrapperOf env.tweets)
  | some h =>
    if 0 < env.tweets.length ∧ countSub "<article" h < max 10 (env.tweets.length / 4) then
      some (wrapperOf env.tweets)
    else some h

/-! ## Record Extractor (`parse_html_to_df`, scraper.py 495-597) -/

/-- The author anchor found inside the `User-Name` block: its `href`
attribute (absent when the tag has none) and the stripped text of its first
`span` descendant (absent when there is no span). -/
structure UserAnchor where
  href : Option String
  spanText : Option String
deriving DecidableEq, Repr

/-- The `[data-testid="User-Name"]` block; `anchor` is its first `a` tag. -/
structure UserNameBlock where
  anchor : Option UserAnchor
deriving DecidableEq, Repr

/-- The first `time` tag of the block: its `datetime` attribute, its stripped
text, and the `href` of its enclosing `a[href]` ancestor when one exists. -/
structure TimeTag where
  datetimeAttr : Option String
  text : String
  parentAHref : Option String
deriving DecidableEq, Repr

/-- One `a[href]` link inside the content block: href attribute and stripped
visible text. -/
structure ContentLink where
  href : String
  text : String
deriving DecidableEq, Repr

/-- The `[data-testid="tweetText"]` content block: its whitespace-normalised
text and its links in document order. -/
structure ContentEl where
  text : String
  links : List ContentLink
deriving DecidableEq, Repr

/-- The element matching `aria-label` ~ `view` (case-insensitive): its
`aria-label` value (which matched, hence contains a `view` substring) and its
stripped text. -/
structure ViewElem where
  ariaLabel : String
  text : String
deriving DecidableEq, Repr

/-- One item block, as the results of the queries `parse_html_to_df` makes on
it: the optional user block, time tag, content block, the stripped texts of
the reply/retweet/like buttons inside the `div[role="group"]` action group
(absent when the button is absent), the optional view element, and the
block's full visible text `tb.get_text(" ", strip=True)`. -/
structure TweetBlock where
  userName : Option UserNameBlock
  timeTag : Option TimeTag
  contentEl : Option ContentEl
  replyBtn : Option String
  retweetBtn : Option String
  likeBtn : Option String
  viewElem : Option ViewElem
  fullText : String
deriving DecidableEq, Repr

/-- One extracted record, the dict initialised at scraper.py 514-519.
`content` starts as `None` (`Option.none`) and is always overwritten. -/
structure TweetRecord where
  tweet_id : Option String
  display_name : Option String
  handle : Option String
  username : Option String
  timestamp_iso : Option String
  timestamp_relative : Option String
  content : Option String
  hashtags : List String
  mentions : List String
  reply_count : Option Int
  retweet_count : Option Int
  like_count : Option Int
  view_count : Option Int
deriving DecidableEq, Repr

/-- Python `href.rstrip("/")`. -/
def pyRstripSlash (s : String) : String :=
  String.mk ((s.data.reverse.dropWhile (fun c => c == '/')).reverse)

/-- Python `s.split(sep)` for a non-empty separator, scanning left to right
over non-overlapping separator occurrences.  The fuel argument (at least the
list length plus one) makes the recursion structural. -/
def splitOnAux (sep : List Char) : Nat → List Char → List Char → List (List Char)
  | 0, acc, l => [acc.reverse ++ l]
  | _+1, acc, [] => [acc.reverse]
  | fuel+1, acc, c :: rest =>
    if (c :: rest).take sep.length = sep then
      acc.reverse :: splitOnAux sep fuel [] ((c :: rest).drop sep.length)
    else
      splitOnAux sep fuel (c :: acc) rest

/-- Python `s.split(sep)` (non-empty separator). -/
def splitOnList (sep l : List Char) : List (List Char) :=
  splitOnAux sep (l.length + 1) [] l

/-- Python `href.rstrip("/").split("/")[-1]`. -/
def lastPathSegment (href : String) : String :=
  String.mk ((splitOnList "/".data (pyRstripSlash href).data).getLastD [])

/-- Substring test `pat in s` for a pattern list. -/
def listContainsSub (p : List Char) : List Char → Bool
  | [] => p.isEmpty
  | c :: rest => ((c :: rest).take p.length = p : Bool) || listContainsSub p rest

/-- Python `pat in s`. -/
def containsSub (pat s : String) : Bool := listContainsSub pat.data s.data

/-- Python `href.split("/status/")[-1].split("?")[0]`. -/
def extractIdFromHref (href : String) : String :=
  String.mk
    ((splitOnList "?".data ((splitOnList "/status/".data href.data).getLastD [])).headD [])

/-- The test `re.match(r"^/[^/]+$", href)`: a slash followed by one or more
non-slash characters, to the end. -/
def singleSegPath (href : String) : Bool :=
  match href.data with
  | '/' :: rest => (!rest.isEmpty) && rest.all (fun c => !(c == '/'))
  | _ => false

/-- Python `href.lstrip("/")`. -/
def pyLstripSlash (s : String) : String :=
  String.mk (s.data.dropWhile (fun c => c == '/'))

/-- `list(dict.fromkeys(xs))`: de-duplication keeping first occurrences. -/
def dedupFirstAux : List String → List String → List String
  | _, [] => []
  | seen, x :: xs =>
    if x ∈ seen then dedupFirstAux seen xs
    else x :: dedupFirstAux (x :: seen) xs

/-- Python `list(dict.fromkeys(xs))`. -/
def pyDictFromKeys (l : List String) : List String := dedupFirstAux [] l

/-- The link-classification loop of the content block (scraper.py 547-557):
hashtag when the href starts with the hashtag route or the text starts with
`#`; else mention when the text starts with `@`; else a synthesized mention
when the href is a bare single-segment path not on the hashtag route. -/
def classifyLinks (links : List ContentLink) : List String × List String :=
  links.foldl
    (fun p t =>
      if t.href.startsWith "/hashtag/" || t.text.startsWith "#" then
        (p.1 ++ [t.text], p.2)
      else if t.text.startsWith "@" then
        (p.1, p.2 ++ [t.text])
      else if singleSegPath t.href && !(t.href.startsWith "/hashtag") then
        (p.1, p.2 ++ ["@" ++ pyLstripSlash t.href])
      else p)
    ([], [])

/-- Lowercased prefix test for the literal `view` of the views pattern. -/
def viewWord (l : List Char) : Bool :=
  match l with
  | v :: i :: e :: w :: _ =>
    v.toLower == 'v' && i.toLower == 'i' && e.toLower == 'e' && w.toLower == 'w'
  | _ => false

/-- Match of `([\d,.]+[kKmM]?)\s*views?` (case-insensitive) at the current
position: the maximal `[\d,.]` run is forced (none of its characters can
serve as suffix, whitespace or `v`), the suffix is taken greedily (when
taking it fails, the leftover suffix letter can never start `view` either),
then whitespace, then the literal `view` (the trailing `s?` never constrains
a search).  Returns the capture group. -/
def matchViewsAt (l : List Char) : Option (List Char) :=
  let run := l.takeWhile countClass
  if run = [] then none
  else
    let rest := l.drop run.length
    let tok_rest : List Char × List Char :=
      match rest with
      | c :: rs => if kmSuffix c then (run ++ [c], rs) else (run, rest)
      | [] => (run, [])
    let rest3 := tok_rest.2.dropWhile Char.isWhitespace
    if viewWord rest3 then some tok_rest.1 else none

/-- Leftmost `re.search` of the views pattern on a character list. -/
def viewsSearchAux : List Char → Option (List Char)
  | [] => none
  | c :: rest =>
    match matchViewsAt (c :: rest) with
    | some tok => some tok
    | none => viewsSearchAux rest

/-- The fallback `re.search(r"([\d,.]+[kKmM]?)\s*views?", text, re.I)` of the
view-count extraction, returning the capture group. -/
def viewsSearch (s : String) : Option String :=
  (viewsSearchAux s.data).map (fun l => String.mk l)

/-- The per-block body of `parse_html_to_df` (scraper.py 513-593), one field
group at a time, in source order.  Each count extraction is wrapped in
`try/except` (`pyCatch`); all other steps are total. -/
def extractRecord (tb : TweetBlock) : TweetRecord :=
  let hd : Option String × Option String :=
    match tb.userName with
    | none => (none, none)
    | some ub =>
      match ub.anchor with
      | none => (none, none)
      | some a =>
        let href := a.href.getD ""
        (if href ≠ "" then some (lastPathSegment href) else none, a.spanText)
  let handle := hd.1
  let display_name := hd.2
  let username :=
    match handle with
    | some h => if h ≠ "" then some h else none
    | none => none
  let tt : Option String × Option String × Option String :=
    match tb.timeTag with
    | none => (none, none, none)
    | some t =>
      (t.datetimeAttr, some t.text,
        match t.parentAHref with
        | none => none
        | some href =>
          if containsSub "/status/" href then some (extractIdFromHref href) else none)
  let chm : Option String × List String × List String :=
    match tb.contentEl with
    | none => (some tb.fullText, [], [])
    | some ce =>
      let hm := classifyLinks ce.links
      (some ce.text, pyDictFromKeys hm.1, pyDictFromKeys hm.2)
  let reply_count :=
    match tb.replyBtn with
    | none => none
    | some t => pyCatch (parse_count_from_text t)
  let retweet_count :=
    match tb.retweetBtn with
    | none => none
    | some t => pyCatch (parse_count_from_text t)
  let like_count :=
    match tb.likeBtn with
    | none => none
    | some t => pyCatch (parse_count_from_text t)
  let view_count :=
    match tb.viewElem with
    | some ve =>
      let vtxt := if ve.ariaLabel ≠ "" then ve.ariaLabel else ve.text
      pyCatch (parse_count_from_text vtxt)
    | none =>
      match viewsSearch tb.fullText with
      | some tok => pyCatch (shorthand_to_int tok)
      | none => none
  { tweet_id := tt.2.2
    display_name := display_name
    handle := handle
    username := username
    timestamp_iso := tt.1
    timestamp_relative := tt.2.1
    content := chm.1
    hashtags := chm.2.1
    mentions := chm.2.2
    reply_count := reply_count
    retweet_count := retweet_count
    like_count := like_count
    view_count := view_count }

/-! ## Session Orchestrator (`run` and `close`, scraper.py 652-737) -/

/-- What one hashtag's processing yields, abstracting the driver: the
search/scroll steps raised (uncaught inside the loop, so the exception
propagates to the `finally`), or `grab_entire_div_html` returned no HTML
(the tag is skipped), or the captured HTML parsed into these item blocks. -/
inductive TagOutcome
  | raises
  | noHtml
  | parsed (blocks : List TweetBlock)

/-- Whether `driver.quit()` succeeds or raises inside `close`. -/
inductive QuitBehavior
  | ok
  | raises

/-- The environment of one `run` execution: whether `start_driver` succeeds
(it is called before the `try` block), whether a pre-loop step such as
`login`'s navigation raises inside the `try`, the per-hashtag outcomes, and
how `driver.quit()` behaves during `close`. -/
structure RunEnv where
  startOk : Bool
  preLoopRaises : Bool
  tags : List (String × TagOutcome)
  quit : QuitBehavior

/-- One row of the combined DataFrame: an extracted record plus the
`_queried_hashtag` column assigned by `run`. -/
structure AggRow where
  record : TweetRecord
  queriedHashtag : String
deriving DecidableEq, Repr

/-- Observable outcome of one `run` execution. -/
structure RunOutcome where
  closeInvoked : Bool
  raised : Bool
  saved : Option (List AggRow)
deriving DecidableEq, Repr

/-- `Scraper.close` (scraper.py 652-661): when a driver is present,
`driver.quit()` runs inside `try/except` whose handler only logs, so the
call never re-raises; without a driver it does nothing. -/
def closeModel (driverPresent : Bool) (quit : QuitBehavior) : Except Unit Unit :=
  if driverPresent then
    match quit with
    | QuitBehavior.ok => Except.ok ()
    | QuitBehavior.raises => Except.ok ()
  else Except.ok ()

/-- The per-hashtag loop of `run` (scraper.py 698-723): a raising tag aborts
the whole loop (no handler inside it), a tag without HTML is skipped, and a
parsed tag whose DataFrame is non-empty contributes its rows tagged with the
hashtag, in processing order. -/
def tagBatches : List (String × TagOutcome) → Except Unit (List (List AggRow))
  | [] => Except.ok []
  | (tag, o) :: rest =>
    match o with
    | TagOutcome.raises => Except.error ()
    | TagOutcome.noHtml => tagBatches rest
    | TagOutcome.parsed blocks =>
      let df := blocks.map extractRecord
      if df.isEmpty then tagBatches rest
      else
        match tagBatches rest with
        | Except.error e => Except.error e
        | Except.ok bs => Except.ok ((df.map (fun r => ⟨r, tag⟩)) :: bs)

/-- `final.drop_duplicates(subset=["tweet_id"], keep="first")` as pandas
executes it: a row is kept iff no earlier row carries the same `tweet_id`
key, where pandas compares null keys as equal (two `None` ids are duplicates
of each other). -/
def pdDropDupAux : List (Option String) → List AggRow → List AggRow
  | _, [] => []
  | seen, r :: rs =>
    if r.record.tweet_id ∈ seen then pdDropDupAux seen rs
    else r :: pdDropDupAux (r.record.tweet_id :: seen) rs

/-- Specification-shaped first-occurrence de-duplication by `tweet_id`: keep
each row and drop every later row with the same id key (null ids included). -/
def dedupByIdSpec : List AggRow → List AggRow
  | [] => []
  | r :: rs =>
    r :: dedupByIdSpec (rs.filter (fun q => decide (q.record.tweet_id ≠ r.record.tweet_id)))
termination_by l => l.length
decreasing_by
  simp only [List.length_cons]
  exact Nat.lt_succ_of_le (List.length_filter_le _ _)

/-- `Scraper.run` (scraper.py 663-737).  `start_driver()` is invoked before
the `try` block, so when it raises, the `finally` (and hence `close`) is
never reached.  Inside the `try`, any raise reaches the `finally`, which
invokes `close`.  On success the batches are concatenated in hashtag order
and de-duplicated by `tweet_id` (the column always exists on a non-empty
DataFrame, since every record dict carries the key); with no batches an
empty dataset is persisted. -/
def runModel (env : RunEnv) : RunOutcome :=
  if !env.startOk then ⟨false, true, none⟩
  else
    let closeR := closeModel true env.quit
    let body : Except Unit (Option (List AggRow)) :=
      if env.preLoopRaises then Except.error ()
      else
        match tagBatches env.tags with
        | Except.error _ => Except.error ()
        | Except.ok [] => Except.ok (some [])
        | Except.ok bs => Except.ok (some (pdDropDupAux [] bs.flatten))
    match body with
    | Except.error _ => ⟨true, true, none⟩
    | Except.ok s =>
      match closeR with
      | Except.ok _ => ⟨true, false, s⟩
      | Except.error _ => ⟨true, true, s⟩

/-! ## Concrete inputs used by witnesses and counterexamples -/

/-- An item block with no sub-elements at all: only visible text. -/
def blkNoIdA : TweetBlock :=
  { userName := none, timeTag := none, contentEl := none, replyBtn := none,
    retweetBtn := none, likeBtn := none, viewElem := none, fullText := "hello one" }

/-- A second id-less block, differing from `blkNoIdA` only in its text. -/
def blkNoIdB : TweetBlock := { blkNoIdA with fullText := "hello two" }

/-- A block whose time tag sits inside a permalink anchor, yielding
`tweet_id = "123"`. -/
def blkWithId : TweetBlock :=
  { blkNoIdA with
    timeTag := some { datetimeAttr := some "2024-01-01T00:00:00Z",
                      text := "Jan 1", parentAHref := some "/u/status/123" },
    fullText := "shared item" }

/-- Two hashtags, each contributing one id-less record. -/
def envTwoNullIds : RunEnv :=
  { startOk := true, preLoopRaises := false,
    tags := [("alpha", TagOutcome.parsed [blkNoIdA]),
             ("beta", TagOutcome.parsed [blkNoIdB])],
    quit := QuitBehavior.ok }

/-- Two hashtags whose result sets share one item with identical id. -/
def envSharedId : RunEnv :=
  { startOk := true, preLoopRaises := false,
    tags := [("alpha", TagOutcome.parsed [blkWithId]),
             ("beta", TagOutcome.parsed [blkWithId])],
    quit := QuitBehavior.ok }

/-- A run in which `start_driver` raises (e.g. the chromedriver path does
not exist). -/
def envStartFails : RunEnv :=
  { startOk := false, preLoopRaises := false, tags := [], quit := QuitBehavior.ok }

/-- A source that renders the same single element at every round. -/
def csrcConst : Nat → List DomElement :=
  fun _ => [{ outerHTML := "t2", statusAnchorHref := none }]

/-- A source that renders one element at round 0 and nothing new afterwards. -/
def csrcOnce : Nat → List DomElement
  | 0 => [{ outerHTML := "t1", statusAnchorHref := none }]
  | _+1 => []

/-- An element whose markup has no `/status/<digits>` segment but whose
descendant status anchor resolves (dot-segment normalisation by the browser)
to a permalink with digits. -/
def elemDotSeg : DomElement :=
  { outerHTML := "<div><a href=\"/status/./123\">go</a></div>",
    statusAnchorHref := some "https://x.com/status/123" }

/-- An element carrying a plain `/status/456` permalink in its markup. -/
def elemPlain : DomElement :=
  { outerHTML := "ab/status/456x", statusAnchorHref := none }

/-- A block with the three action buttons but no view element and no
`views` text. -/
def blkCounts : TweetBlock :=
  { userName := none, timeTag := none, contentEl := none,
    replyBtn := some "12", retweetBtn := some "1.2K", likeBtn := some "3M",
    viewElem := none, fullText := "hello" }

/-- A degraded-mode block: no content block, but its visible text carries
hashtag- and mention-looking tokens. -/
def blkDegraded : TweetBlock :=
  { userName := none, timeTag := none, contentEl := none, replyBtn := none,
    retweetBtn := none, likeBtn := none, viewElem := none,
    fullText := "#tag and @user text" }

/-- A long accepted capture containing two item tags. -/
def longCapture : String :=
  "<article>one</article><article>two</article>xxxxxxxxxxxxxxxx"

/-- A capture environment whose accepted capture is implausibly small for
the fifty enumerated tweets. -/
def capEnvSparse : CaptureEnv :=
  { selHtml := [none, some "short", some longCapture],
    tweets := List.replicate 50 "<article>t</article>" }

/-! ## Derived definitions used by theorem statements -/

/-- The result of the fallback branch of `_shorthand_to_int`: strip the
non-digits of the preprocessed string and parse, absent when nothing
remains (or the input was empty, which returns before matching). -/
def shorthandFallback (s : String) : Option Int :=
  if s.data = [] then none
  else
    let ds := (shorthandPre s).filter Char.isDigit
    if ds = [] then none else some (digitsVal ds : Int)

/-- Whether a character list does not start with a digit. -/
def headNotDigit (l : List Char) : Bool :=
  match l with
  | [] => true
  | c :: _ => !c.isDigit

/-! ## Lemmas about the Shorthand Numeric Parser -/

/-- Every integer `_shorthand_to_int` returns is non-negative: each returned
value is the cast of a natural number. -/
lemma shorthand_ok_nonneg {s : String} {v : Int}
    (h : shorthand_to_int s = Except.ok (some v)) : 0 ≤ v := by
  unfold shorthand_to_int at h
  split at h
  · simp at h
  · split at h
    · split at h
      · simp at h
      · simp only [Except.ok.injEq, Option.some.injEq] at h
        subst h
        exact Int.natCast_nonneg _
    · split at h
      · simp at h
      · split at h
        · split at h
          · simp only [Except.ok.injEq, Option.some.injEq] at h
            subst h
            exact Int.natCast_nonneg _
          · simp only [Except.ok.injEq, Option.some.injEq] at h
            subst h
            exact Int.natCast_nonneg _
        · simp only [Except.ok.injEq, Option.some.injEq] at h
          subst h
          exact Int.natCast_nonneg _

/-- Guarded extraction of a parser result is non-negative (with `0` standing
for the absent value). -/
lemma getD_nonneg_of {e : Except Unit (Option Int)}
    (h : ∀ v : Int, e = Except.ok (some v) → 0 ≤ v) : 0 ≤ (pyCatch e).getD 0 := by
  cases e with
  | error _ => simp [pyCatch]
  | ok o =>
    cases o with
    | none => simp [pyCatch]
    | some v => simpa [pyCatch] using h v rfl

/-- Guarded `_shorthand_to_int` never yields a negative value. -/
lemma shorthand_catch_nonneg (s : String) :
    0 ≤ (pyCatch (shorthand_to_int s)).getD 0 :=
  getD_nonneg_of (fun _ h => shorthand_ok_nonneg h)

/-- Guarded `_parse_count_from_text` never yields a negative value. -/
lemma parse_count_nonneg (t : String) :
    0 ≤ (pyCatch (parse_count_from_text t)).getD 0 := by
  unfold parse_count_from_text
  split
  · simp [pyCatch]
  · split
    · exact getD_nonneg_of (fun _ h => shorthand_ok_nonneg h)
    · simp [pyCatch]

/-! ## Claim theorems: Shorthand Numeric Parser -/

/-- C2 counterexample: on the input "1.2.3" the anchored pattern matches
with numeric group "1.2.3", and `float("1.2.3")` raises an uncaught
`ValueError`, so `_shorthand_to_int` raises instead of returning an integer
or absent — refuting the claim that it never raises. -/
theorem shorthand_raises_cex : shorthand_to_int "1.2.3" = Except.error () := by
  rfl

/-- C2 (amended): `_shorthand_to_int` raises exactly when the anchored
shorthand pattern matches but its numeric group is not a valid float (no
digit, or more than one dot); on every input where the pattern does not
match it returns, without raising, the integer parsed from the non-digit
stripped remainder, or absent when that remainder is empty. -/
theorem shorthand_parser_contract (s : String) :
    (shorthand_to_int s = Except.error () ↔
      (s.data ≠ [] ∧ ∃ a suf, matchShorthand (shorthandPre s) = some (a, suf)
        ∧ pyFloatDigitsDots a = none))
    ∧ (matchShorthand (shorthandPre s) = none →
        shorthand_to_int s = Except.ok (shorthandFallback s)) := by
  constructor
  · constructor
    · intro herr
      unfold shorthand_to_int at herr
      split at herr
      · simp at herr
      · rename_i hs
        refine ⟨hs, ?_⟩
        split at herr
        · split at herr <;> simp at herr
        · rename_i a suf hm
          refine ⟨a, suf, hm, ?_⟩
          split at herr
          · rename_i hf
            exact hf
          · split at herr
            · split at herr <;> simp at herr
            · simp at herr
    · rintro ⟨hs, a, suf, hm, hf⟩
      simp only [shorthand_to_int, if_neg hs, hm, hf]
  · intro hm
    unfold shorthand_to_int shorthandFallback
    by_cases hs : s.data = []
    · rw [if_pos hs, if_pos hs]
    · rw [if_neg hs, if_neg hs, hm]
      show (if (shorthandPre s).filter Char.isDigit = [] then Except.ok none
            else Except.ok (some (digitsVal ((shorthandPre s).filter Char.isDigit) : Int)))
        = Except.ok (if (shorthandPre s).filter Char.isDigit = [] then none
            else some (digitsVal ((shorthandPre s).filter Char.isDigit) : Int))
      split <;> rfl

/-- C2 witness: the contract applied at the concrete non-matching input
"abc": the fallback strips everything, leaving absent, and nothing raises. -/
theorem shorthand_parser_contract_witness :
    shorthand_to_int "abc" = Except.ok none :=
  (shorthand_parser_contract "abc").2 (by decide)

/-! ## Claim theorems: Record Extractor -/

/-- C7: on an item block carrying the reply, retweet and like buttons of the
action group but no view element and no `views` text, the extracted record
has `view_count` absent while the three engagement counts are exactly the
guarded results of the Shorthand Numeric Parser on the button texts; no
exception escapes (all fallible sub-parses are confined by `pyCatch`). -/
theorem view_absent_counts_parse (tb : TweetBlock) (rp rt lk : String)
    (hr : tb.replyBtn = some rp) (hw : tb.retweetBtn = some rt)
    (hl : tb.likeBtn = some lk) (hv : tb.viewElem = none)
    (hs : viewsSearch tb.fullText = none) :
    (extractRecord tb).view_count = none
    ∧ (extractRecord tb).reply_count = pyCatch (parse_count_from_text rp)
    ∧ (extractRecord tb).retweet_count = pyCatch (parse_count_from_text rt)
    ∧ (extractRecord tb).like_count = pyCatch (parse_count_from_text lk) := by
  refine ⟨?_, ?_, ?_, ?_⟩ <;> simp [extractRecord, hr, hw, hl, hv, hs]

/-- C7 witness: a concrete block with reply "12", retweet "1.2K" and like
"3M" but no view information parses to 12, 1200 and 3000000 with the view
count absent. -/
theorem view_absent_counts_parse_witness :
    (extractRecord blkCounts).view_count = none
    ∧ (extractRecord blkCounts).reply_count = some 12
    ∧ (extractRecord blkCounts).retweet_count = some 1200
    ∧ (extractRecord blkCounts).like_count = some 3000000 := by
  have h := view_absent_counts_parse blkCounts "12" "1.2K" "3M" rfl rfl rfl rfl (by decide)
  exact ⟨h.1, h.2.1.trans (by decide), h.2.2.1.trans (by decide), h.2.2.2.trans (by decide)⟩

/-- C8: every record the extractor produces satisfies the Item Record
invariant — its content is present (a string, possibly empty), and each of
the four engagement counts is absent or a non-negative integer (the `getD 0`
reading makes both cases a single non-negativity statement). -/
theorem record_invariants (tb : TweetBlock) :
    (extractRecord tb).content.isSome = true
    ∧ 0 ≤ ((extractRecord tb).reply_count.getD 0)
    ∧ 0 ≤ ((extractRecord tb).retweet_count.getD 0)
    ∧ 0 ≤ ((extractRecord tb).like_count.getD 0)
    ∧ 0 ≤ ((extractRecord tb).view_count.getD 0) := by
  refine ⟨?_, ?_, ?_, ?_, ?_⟩
  · cases h : tb.contentEl <;> simp [extractRecord, h]
  · cases h : tb.replyBtn <;> simp [extractRecord, h, parse_count_nonneg]
  · cases h : tb.retweetBtn <;> simp [extractRecord, h, parse_count_nonneg]
  · cases h : tb.likeBtn <;> simp [extractRecord, h, parse_count_nonneg]
  · cases h : tb.viewElem with
    | some ve => simp [extractRecord, h, parse_count_nonneg]
    | none =>
      cases h2 : viewsSearch tb.fullText with
      | some tok => simp [extractRecord, h, h2, shorthand_catch_nonneg]
      | none => simp [extractRecord, h, h2]

/-- C10: in degraded mode (no recognizable content block) the extractor uses
the block's full visible text as content and performs no link
classification, so the hashtag and mention lists are empty whatever the
text or the rest of the block contains. -/
theorem degraded_mode_no_links (tb : TweetBlock) (h : tb.contentEl = none) :
    (extractRecord tb).hashtags = [] ∧ (extractRecord tb).mentions = [] := by
  constructor <;> simp [extractRecord, h]

/-- C10 witness: a block with no content element whose visible text contains
hashtag- and mention-shaped tokens still yields empty lists. -/
theorem degraded_mode_no_links_witness :
    (extractRecord blkDegraded).hashtags = [] ∧ (extractRecord blkDegraded).mentions = [] :=
  degraded_mode_no_links blkDegraded rfl

/-! ## Lemmas about the Incremental Collector -/

/-- One unfolding step of the scroll loop. -/
lemma ensureAux_succ (src : Nat → List DomElement) (minC fuel i : Nat)
    (seen : List String) (last stable : Nat) :
    ensureAux src minC (fuel+1) i seen last stable =
      if minC ≤ (addFingerprints (src i) seen).length then
        ⟨(addFingerprints (src i) seen).length, 1⟩
      else if 6 ≤ (if (addFingerprints (src i) seen).length ≤ last then stable + 1 else 0) then
        ⟨(addFingerprints (src i) seen).length, 1⟩
      else
        ⟨(ensureAux src minC fuel (i+1) (addFingerprints (src i) seen)
            ((addFingerprints (src i) seen).length)
            (if (addFingerprints (src i) seen).length ≤ last then stable + 1 else 0)).count,
          (ensureAux src minC fuel (i+1) (addFingerprints (src i) seen)
            ((addFingerprints (src i) seen).length)
            (if (addFingerprints (src i) seen).length ≤ last then stable + 1 else 0)).rounds + 1⟩ :=
  rfl

/-- The merge of round `i` applied to the entry state yields the cumulative
state. -/
lemma seen_step (src : Nat → List DomElement) (i : Nat) :
    addFingerprints (src i) (seenBefore src i) = seenUpto src i := by
  cases i <;> rfl

/-- Length of the cumulative set. -/
lemma cum_eq (src : Nat → List DomElement) (i : Nat) :
    (seenUpto src i).length = cumUnique src i := rfl

/-- Length of the entry state. -/
lemma seenBefore_len (src : Nat → List DomElement) (i : Nat) :
    (seenBefore src i).length = cumBefore src i := by
  cases i <;> rfl

/-- The stall-counter update of round `i` applied to the entry state yields
the post-round trajectory value. -/
lemma stable_step (src : Nat → List DomElement) (i : Nat) :
    (if cumUnique src i ≤ cumBefore src i then stableBefore src i + 1 else 0)
      = stableAfter src i := by
  cases i <;> rfl

/-- Entry state at round `i+1`. -/
lemma seenBefore_succ (src : Nat → List DomElement) (i : Nat) :
    seenUpto src i = seenBefore src (i+1) := rfl

/-- Entry count at round `i+1`. -/
lemma cumBefore_succ (src : Nat → List DomElement) (i : Nat) :
    cumUnique src i = cumBefore src (i+1) := rfl

/-- Entry stall counter at round `i+1`. -/
lemma stableBefore_succ (src : Nat → List DomElement) (i : Nat) :
    stableAfter src i = stableBefore src (i+1) := rfl

/-- Inserting never shrinks a set. -/
lemma setInsert_len_le (x : String) (l : List String) :
    l.length ≤ (setInsert x l).length := by
  unfold setInsert
  split
  · exact Nat.le_refl _
  · simp

/-- Merging a round of fingerprints never shrinks the set. -/
lemma addFingerprints_len_le (es : List DomElement) :
    ∀ l : List String, l.length ≤ (addFingerprints es l).length := by
  induction es with
  | nil => intro l; exact Nat.le_refl _
  | cons e es ih =>
    intro l
    exact (setInsert_len_le (fingerprint e) l).trans (ih (setInsert (fingerprint e) l))

/-- The cumulative unique count is monotone. -/
lemma cumUnique_mono (src : Nat → List DomElement) :
    ∀ {i j : Nat}, i ≤ j → cumUnique src i ≤ cumUnique src j := by
  intro i j h
  induction j with
  | zero => cases Nat.le_zero.mp h; exact Nat.le_refl _
  | succ n ih =>
    rcases Nat.lt_or_ge i (n+1) with hlt | hge
    · exact (ih (Nat.lt_succ_iff.mp hlt)).trans (addFingerprints_len_le _ _)
    · cases Nat.le_antisymm h hge
      exact Nat.le_refl _

/-- The loop never performs more rounds than its fuel. -/
lemma ensureAux_rounds_le (src : Nat → List DomElement) (minC : Nat) :
    ∀ (fuel i : Nat) (seen : List String) (last stable : Nat),
      (ensureAux src minC fuel i seen last stable).rounds ≤ fuel := by
  intro fuel
  induction fuel with
  | zero => intro i seen last stable; exact Nat.le_refl _
  | succ f ih =>
    intro i seen last stable
    rw [ensureAux_succ]
    by_cases h1 : minC ≤ (addFingerprints (src i) seen).length
    · rw [if_pos h1]
      exact Nat.succ_le_succ (Nat.zero_le f)
    · rw [if_neg h1]
      by_cases h2 : 6 ≤ (if (addFingerprints (src i) seen).length ≤ last then stable + 1 else 0)
      · rw [if_pos h2]
        exact Nat.succ_le_succ (Nat.zero_le f)
      · rw [if_neg h2]
        exact Nat.succ_le_succ (ih _ _ _ _)

/-- Execution through rounds none of which triggers a stop: the loop runs to
fuel exhaustion and returns the entry count of the round past the last. -/
lemma ensureAux_no_stop (src : Nat → List DomElement) (minC : Nat) :
    ∀ (fuel i : Nat),
      (∀ j, i ≤ j → j < i + fuel → stopB src minC j = false) →
      ensureAux src minC fuel i (seenBefore src i) (cumBefore src i) (stableBefore src i)
        = ⟨cumBefore src (i + fuel), fuel⟩ := by
  intro fuel
  induction fuel with
  | zero =>
    intro i _
    show (⟨(seenBefore src i).length, 0⟩ : LoopResult) = _
    rw [seenBefore_len, Nat.add_zero]
  | succ f ih =>
    intro i hstop
    have h0 : stopB src minC i = false := hstop i (Nat.le_refl i) (by omega)
    have hns : ¬ minC ≤ cumUnique src i ∧ ¬ 6 ≤ stableAfter src i := by
      constructor <;> intro hx <;> simp [stopB, hx] at h0
    rw [ensureAux_succ, seen_step, cum_eq, stable_step, if_neg hns.1, if_neg hns.2,
        seenBefore_succ, cumBefore_succ, stableBefore_succ,
        ih (i+1) (fun j h1 h2 => hstop j (by omega) (by omega))]
    have : i + 1 + f = i + (f + 1) := by omega
    rw [this]

/-- Execution up to the first stopping round `T`: the loop returns the
cumulative count of round `T` having performed exactly the rounds up to and
including `T`. -/
lemma ensureAux_stop (src : Nat → List DomElement) (minC : Nat) :
    ∀ (fuel i T : Nat), i ≤ T → T < i + fuel →
      stopB src minC T = true →
      (∀ j, i ≤ j → j < T → stopB src minC j = false) →
      ensureAux src minC fuel i (seenBefore src i) (cumBefore src i) (stableBefore src i)
        = ⟨cumUnique src T, T + 1 - i⟩ := by
  intro fuel
  induction fuel with
  | zero =>
    intro i T h1 h2 _ _
    omega
  | succ f ih =>
    intro i T hiT hTf hT hprior
    rcases Nat.eq_or_lt_of_le hiT with heq | hlt
    · subst heq
      rw [ensureAux_succ, seen_step, cum_eq, stable_step]
      by_cases hmc : minC ≤ cumUnique src i
      · rw [if_pos hmc]
        have : i + 1 - i = 1 := by omega
        rw [this]
      · have hst : 6 ≤ stableAfter src i := by
          have hor : minC ≤ cumUnique src i ∨ 6 ≤ stableAfter src i := by
            simpa [stopB] using hT
          rcases hor with hx | hx
          · exact absurd hx hmc
          · exact hx
        rw [if_neg hmc, if_pos hst]
        have : i + 1 - i = 1 := by omega
        rw [this]
    · have h0 : stopB src minC i = false := hprior i (Nat.le_refl i) hlt
      have hns : ¬ minC ≤ cumUnique src i ∧ ¬ 6 ≤ stableAfter src i := by
        constructor <;> intro hx <;> simp [stopB, hx] at h0
      rw [ensureAux_succ, seen_step, cum_eq, stable_step, if_neg hns.1, if_neg hns.2,
          seenBefore_succ, cumBefore_succ, stableBefore_succ,
          ih (i+1) T hlt (by omega) hT (fun j ha hb => hprior j (by omega) hb)]
      have : T + 1 - (i + 1) + 1 = T + 1 - i := by omega
      rw [this]

/-! ## Claim theorems: Incremental Collector -/

/-- C4: the collector performs at most `max_scrolls` rounds; whenever it
returns a count reaching `min_count` (having run at least one round), it
stopped at the first round whose cumulative unique count reached
`min_count`, returning exactly that count; and for any source that keeps
producing new unique fingerprints while below the target, reaching the
target at some round within the budget guarantees the returned count
reaches it. -/
theorem collector_reaches_target (src : Nat → List DomElement) (minC maxS : Nat) :
    (ensure_min_tweets_loaded src minC maxS).rounds ≤ maxS
    ∧ (minC ≤ (ensure_min_tweets_loaded src minC maxS).count →
        1 ≤ (ensure_min_tweets_loaded src minC maxS).rounds →
        ∃ r, r < maxS ∧ minC ≤ cumUnique src r ∧ (∀ j, j < r → cumUnique src j < minC) ∧
          ensure_min_tweets_loaded src minC maxS = ⟨cumUnique src r, r + 1⟩)
    ∧ ((∀ i, cumUnique src i < minC → cumUnique src i < cumUnique src (i+1)) →
        ∀ r, r < maxS → minC ≤ cumUnique src r →
          minC ≤ (ensure_min_tweets_loaded src minC maxS).count) := by
  have hdef : ensure_min_tweets_loaded src minC maxS
      = ensureAux src minC maxS 0 (seenBefore src 0) (cumBefore src 0) (stableBefore src 0) := rfl
  refine ⟨?_, ?_, ?_⟩
  · exact ensureAux_rounds_le src minC maxS 0 [] 0 0
  · intro hcount hrounds
    by_cases hex : ∃ j, j < maxS ∧ stopB src minC j = true
    · have hex2 : ∃ j, stopB src minC j = true := ⟨hex.choose, hex.choose_spec.2⟩
      have hTstop : stopB src minC (Nat.find hex2) = true := Nat.find_spec hex2
      have hTlt : Nat.find hex2 < maxS :=
        lt_of_le_of_lt (Nat.find_min' hex2 hex.choose_spec.2) hex.choose_spec.1
      have hprior : ∀ j, j < Nat.find hex2 → stopB src minC j = false := fun j hj => by
        simpa using Nat.find_min hex2 hj
      have heq := ensureAux_stop src minC maxS 0 (Nat.find hex2) (Nat.zero_le _)
        (by omega) hTstop (fun j _ hj => hprior j hj)
      have hc2 : minC ≤ cumUnique src (Nat.find hex2) := by
        rw [hdef, heq] at hcount
        exact hcount
      refine ⟨Nat.find hex2, hTlt, hc2, ?_, ?_⟩
      · intro j hj
        have hf := hprior j hj
        by_contra hge
        push_neg at hge
        simp [stopB, hge] at hf
      · rw [hdef, heq]
        rfl
    · have hall : ∀ j, j < maxS → stopB src minC j = false := by
        intro j hj
        by_contra hcon
        exact hex ⟨j, hj, by simpa using hcon⟩
      have heq := ensureAux_no_stop src minC maxS 0 (fun j _ hj => hall j (by omega))
      rw [hdef, heq] at hcount hrounds
      cases maxS with
      | zero => exact absurd hrounds (by simp)
      | succ m =>
        exfalso
        have hcm : minC ≤ cumUnique src m := by
          have hx : cumBefore src (0 + (m+1)) = cumUnique src m := by
            rw [Nat.zero_add]
            rfl
          exact hx ▸ hcount
        have hf := hall m (by omega)
        simp [stopB, hcm] at hf
  · intro hg r hr hminr
    have hQ : ∃ j, minC ≤ cumUnique src j := ⟨r, hminr⟩
    have hr0 : minC ≤ cumUnique src (Nat.find hQ) := Nat.find_spec hQ
    have hr0le : Nat.find hQ ≤ r := Nat.find_min' hQ hminr
    have hstable : ∀ j, j < Nat.find hQ → stableAfter src j ≤ 1 := by
      intro j hj
      cases j with
      | zero =>
        show (if cumUnique src 0 ≤ 0 then 1 else 0) ≤ 1
        split <;> omega
      | succ n =>
        have hn : ¬ minC ≤ cumUnique src n := Nat.find_min hQ (by omega)
        have hlt := hg n (by omega)
        show (if cumUnique src (n+1) ≤ cumUnique src n then stableAfter src n + 1 else 0) ≤ 1
        rw [if_neg (by omega)]
        omega
    have hprior : ∀ j, j < Nat.find hQ → stopB src minC j = false := by
      intro j hj
      have h1 : ¬ minC ≤ cumUnique src j := Nat.find_min hQ hj
      have h2 := hstable j hj
      simp only [stopB, Bool.or_eq_false_iff, decide_eq_false_iff_not]
      exact ⟨h1, by omega⟩
    have hstop0 : stopB src minC (Nat.find hQ) = true := by
      simp only [stopB, Bool.or_eq_true, decide_eq_true_eq]
      exact Or.inl hr0
    have heq := ensureAux_stop src minC maxS 0 (Nat.find hQ) (Nat.zero_le _)
      (by omega) hstop0 (fun j _ hj => hprior j hj)
    rw [hdef, heq]
    exact hr0

/-- C4 witness: a source rendering one fixed element every round reaches a
target of one unique tweet within a budget of ten scrolls. -/
theorem collector_reaches_target_witness :
    1 ≤ (ensure_min_tweets_loaded csrcConst 1 10).count := by
  have h0 : cumUnique csrcConst 0 = 1 := by decide
  have hg : ∀ i, cumUnique csrcConst i < 1 → cumUnique csrcConst i < cumUnique csrcConst (i+1) := by
    intro i hi
    have := cumUnique_mono csrcConst (Nat.zero_le i)
    omega
  exact (collector_reaches_target csrcConst 1 10).2.2 hg 0 (by omega) (by omega)

/-- C5: for a source that produces nothing new after round `k`, with the
target never reached, the collector executes no round beyond index `k + 6`
(at most `k + 7` loop iterations); and when the source grew strictly at
every round up to `k` and the budget allows it, the returned count is the
plateaued cumulative count of round `k`. -/
theorem collector_stall_bound (src : Nat → List DomElement) (minC maxS k : Nat)
    (hflat : ∀ i, k ≤ i → cumUnique src i = cumUnique src k)
    (hbelow : ∀ i, cumUnique src i < minC) :
    (ensure_min_tweets_loaded src minC maxS).rounds ≤ k + 7
    ∧ ((∀ i, i < k → cumUnique src i < cumUnique src (i+1)) → k + 6 < maxS →
        (ensure_min_tweets_loaded src minC maxS).count = cumUnique src k) := by
  have hdef : ensure_min_tweets_loaded src minC maxS
      = ensureAux src minC maxS 0 (seenBefore src 0) (cumBefore src 0) (stableBefore src 0) := rfl
  have hflatstable : ∀ j, stableAfter src (k + j) = stableAfter src k + j := by
    intro j
    induction j with
    | zero => rfl
    | succ n ih =>
      have h1 : cumUnique src (k + n + 1) = cumUnique src k := hflat _ (by omega)
      have h2 : cumUnique src (k + n) = cumUnique src k := hflat _ (by omega)
      show (if cumUnique src (k + n + 1) ≤ cumUnique src (k + n)
            then stableAfter src (k + n) + 1 else 0) = stableAfter src k + (n + 1)
      rw [if_pos (by omega), ih]
      omega
  have hk6 : 6 ≤ stableAfter src (k + 6) := by
    rw [hflatstable 6]
    omega
  have hstop6 : stopB src minC (k + 6) = true := by
    simp only [stopB, Bool.or_eq_true, decide_eq_true_eq]
    exact Or.inr hk6
  constructor
  · by_cases hex : ∃ j, j < maxS ∧ stopB src minC j = true
    · have hex2 : ∃ j, stopB src minC j = true := ⟨hex.choose, hex.choose_spec.2⟩
      have hTstop : stopB src minC (Nat.find hex2) = true := Nat.find_spec hex2
      have hTlt : Nat.find hex2 < maxS :=
        lt_of_le_of_lt (Nat.find_min' hex2 hex.choose_spec.2) hex.choose_spec.1
      have hT6 : Nat.find hex2 ≤ k + 6 := Nat.find_min' hex2 hstop6
      have hprior : ∀ j, j < Nat.find hex2 → stopB src minC j = false := fun j hj => by
        simpa using Nat.find_min hex2 hj
      have heq := ensureAux_stop src minC maxS 0 (Nat.find hex2) (Nat.zero_le _)
        (by omega) hTstop (fun j _ hj => hprior j hj)
      rw [hdef, heq]
      show Nat.find hex2 + 1 - 0 ≤ k + 7
      omega
    · have hall : ∀ j, j < maxS → stopB src minC j = false := by
        intro j hj
        by_contra hcon
        exact hex ⟨j, hj, by simpa using hcon⟩
      have heq := ensureAux_no_stop src minC maxS 0 (fun j _ hj => hall j (by omega))
      rw [hdef, heq]
      show maxS ≤ k + 7
      by_contra hcon
      push_neg at hcon
      have hf := hall (k + 6) (by omega)
      rw [hstop6] at hf
      exact absurd hf (by simp)
  · intro hg hm
    have hex2 : ∃ j, stopB src minC j = true := ⟨k + 6, hstop6⟩
    have hTstop : stopB src minC (Nat.find hex2) = true := Nat.find_spec hex2
    have hT6 : Nat.find hex2 ≤ k + 6 := Nat.find_min' hex2 hstop6
    have hprior : ∀ j, j < Nat.find hex2 → stopB src minC j = false := fun j hj => by
      simpa using Nat.find_min hex2 hj
    have hkT : k ≤ Nat.find hex2 := by
      by_contra hcon
      push_neg at hcon
      have h1 : ¬ minC ≤ cumUnique src (Nat.find hex2) := by
        have := hbelow (Nat.find hex2)
        omega
      have h2 : stableAfter src (Nat.find hex2) ≤ 1 := by
        cases hTc : Nat.find hex2 with
        | zero =>
          show (if cumUnique src 0 ≤ 0 then 1 else 0) ≤ 1
          split <;> omega
        | succ n =>
          have hlt := hg n (by omega)
          show (if cumUnique src (n+1) ≤ cumUnique src n then stableAfter src n + 1 else 0) ≤ 1
          rw [if_neg (by omega)]
          omega
      have hd : minC ≤ cumUnique src (Nat.find hex2)
          ∨ 6 ≤ stableAfter src (Nat.find hex2) := by
        simpa only [stopB, Bool.or_eq_true, decide_eq_true_eq] using hTstop
      rcases hd with hx | hx
      · exact h1 hx
      · omega
    have heq := ensureAux_stop src minC maxS 0 (Nat.find hex2) (Nat.zero_le _)
      (by omega) hTstop (fun j _ hj => hprior j hj)
    rw [hdef, heq]
    show cumUnique src (Nat.find hex2) = cumUnique src k
    exact hflat _ hkT

/-- C5 witness: a source that renders one element at round 0 and nothing
afterwards, with target 5 and budget 20, stops within 7 rounds returning
the plateaued count of round 0. -/
theorem collector_stall_bound_witness :
    (ensure_min_tweets_loaded csrcOnce 5 20).rounds ≤ 7
    ∧ (ensure_min_tweets_loaded csrcOnce 5 20).count = cumUnique csrcOnce 0 := by
  have hflat0 : ∀ i, cumUnique csrcOnce i = cumUnique csrcOnce 0 := by
    intro i
    induction i with
    | zero => rfl
    | succ n ih => exact (rfl : cumUnique csrcOnce (n+1) = cumUnique csrcOnce n).trans ih
  have h0 : cumUnique csrcOnce 0 = 1 := by decide
  have hbelow : ∀ i, cumUnique csrcOnce i < 5 := by
    intro i
    rw [hflat0 i]
    omega
  have h := collector_stall_bound csrcOnce 5 20 0 (fun i _ => hflat0 i) hbelow
  exact ⟨h.1, h.2 (fun i hi => absurd hi (by omega)) (by omega)⟩

/-! ## Lemmas about the Fingerprint Resolver -/

/-- `takeWhile` over an all-satisfying block followed by a non-satisfying
head returns exactly the block. -/
lemma takeWhile_append_of (p : Char → Bool) :
    ∀ (ds post : List Char), (∀ c ∈ ds, p c = true) →
      (∀ c, post.head? = some c → p c = false) →
      (ds ++ post).takeWhile p = ds := by
  intro ds
  induction ds with
  | nil =>
    intro post _ hpost
    cases post with
    | nil => rfl
    | cons c cs => simp [List.takeWhile_cons, hpost c rfl]
  | cons d ds ih =>
    intro post hall hpost
    have hd : p d = true := hall d (List.mem_cons_self d ds)
    have hds : ∀ c ∈ ds, p c = true := fun c hc => hall c (List.mem_cons_of_mem d hc)
    show ((d :: ds) ++ post).takeWhile p = d :: ds
    rw [List.cons_append]
    simp [List.takeWhile_cons, hd, ih post hds hpost]

/-- The status pattern matches at the seam of a decomposed string, capturing
exactly the digit block. -/
lemma statusMatchAt_decomp (ds post : List Char) (hne : ds ≠ [])
    (hdig : ∀ c ∈ ds, c.isDigit = true)
    (hpost : headNotDigit post = true) :
    statusMatchAt (statusPat ++ ds ++ post) = some ds := by
  have hpost2 : ∀ c, post.head? = some c → c.isDigit = false := by
    intro c hc
    cases post with
    | nil => exact absurd hc (by simp)
    | cons x xs =>
      simp only [List.head?_cons] at hc
      have hcx : x = c := Option.some.inj hc
      subst hcx
      simp only [headNotDigit, Bool.not_eq_true'] at hpost
      exact hpost
  unfold statusMatchAt
  rw [List.append_assoc]
  rw [show (8 : Nat) = statusPat.length from rfl]
  rw [List.take_left, List.drop_left]
  rw [if_pos rfl]
  rw [takeWhile_append_of Char.isDigit ds post hdig hpost2]
  rw [if_neg hne]

/-- The scanner finds the match at position `j` when no earlier position
matches. -/
lemma statusScan_found : ∀ (l : List Char) (j : Nat) (ds : List Char),
    (∀ i, i < j → statusMatchAt (l.drop i) = none) →
    statusMatchAt (l.drop j) = some ds →
    statusScan l = some ds := by
  intro l
  induction l with
  | nil =>
    intro j ds _ hj
    rw [List.drop_nil] at hj
    rw [show statusMatchAt ([] : List Char) = none from rfl] at hj
    exact absurd hj (by simp)
  | cons c rest ih =>
    intro j ds hmin hj
    cases j with
    | zero =>
      rw [List.drop_zero] at hj
      show (match statusMatchAt (c :: rest) with
            | some ds => some ds
            | none => statusScan rest) = some ds
      rw [hj]
    | succ n =>
      have h0 : statusMatchAt (c :: rest) = none := by
        have hx := hmin 0 (Nat.succ_pos n)
        rwa [List.drop_zero] at hx
      show (match statusMatchAt (c :: rest) with
            | some ds => some ds
            | none => statusScan rest) = some ds
      rw [h0]
      exact ih n ds
        (fun i hi => by
          have hx := hmin (i+1) (by omega)
          rwa [List.drop_succ_cons] at hx)
        (by rwa [List.drop_succ_cons] at hj)

/-! ## Claim theorems: Fingerprint Resolver -/

/-- C6 counterexample: an element whose serialized markup contains no
`/status/<digits>` segment (its literal href is `/status/./123`), but
whose descendant status anchor resolves, after browser dot-segment
normalisation, to a permalink with digits: the resolver returns those
digits, not a `sha1-`-prefixed hash of the markup — refuting the claim
that an element without the pattern in its markup always gets the hash
fallback. -/
theorem fingerprint_href_tier_cex :
    statusDigits elemDotSeg.outerHTML = none
    ∧ fingerprint elemDotSeg = "123"
    ∧ (fingerprint elemDotSeg).data.take 5 ≠ "sha1-".data := by
  refine ⟨by decide, by decide, by decide⟩

/-- C6 (amended): the resolver works in three tiers.  If the serialized
markup contains `/status/<digits>` (stated as an explicit first-occurrence
decomposition), it returns exactly those digits regardless of the
surrounding markup.  Otherwise, if the resolved href of a descendant status
anchor contains `/status/<digits>`, it returns the digits found there.
Otherwise it returns the `sha1-`-prefixed hash of the full serialized
markup — a fixed function of the markup, hence deterministic — so it always
produces some string. -/
theorem fingerprint_tiers (e : DomElement) :
    (∀ pre ds post, e.outerHTML.data = pre ++ statusPat ++ ds ++ post →
       ds ≠ [] → (∀ c ∈ ds, c.isDigit = true) → headNotDigit post = true →
       (∀ j, j < pre.length → statusMatchAt (e.outerHTML.data.drop j) = none) →
       fingerprint e = String.mk ds)
    ∧ (statusDigits e.outerHTML = none →
        ∀ href d, e.statusAnchorHref = some href → statusDigits href = some d →
          fingerprint e = d)
    ∧ (statusDigits e.outerHTML = none →
        (∀ href, e.statusAnchorHref = some href → statusDigits href = none) →
        fingerprint e = "sha1-" ++ sha1HexModel e.outerHTML) := by
  refine ⟨?_, ?_, ?_⟩
  · intro pre ds post hdec hne hdig hpost hpre
    have hmatch : statusMatchAt (e.outerHTML.data.drop pre.length) = some ds := by
      rw [hdec]
      rw [show pre ++ statusPat ++ ds ++ post = pre ++ (statusPat ++ ds ++ post) from by
        simp [List.append_assoc]]
      rw [List.drop_left]
      exact statusMatchAt_decomp ds post hne hdig hpost
    have hscan : statusScan e.outerHTML.data = some ds :=
      statusScan_found _ pre.length ds hpre hmatch
    simp [fingerprint, statusDigits, hscan]
  · intro h href d ha hd
    simp [fingerprint, h, ha, hd]
  · intro h hnone
    cases ha : e.statusAnchorHref with
    | none => simp [fingerprint, h, ha]
    | some href => simp [fingerprint, h, ha, hnone href ha]

/-- C6 witness: the first tier applied to the concrete markup
`ab/status/456x` yields exactly the digits 456. -/
theorem fingerprint_tiers_witness : fingerprint elemPlain = "456" := by
  have h := (fingerprint_tiers elemPlain).1 "ab".data "456".data "x".data
    (by decide) (by decide) (by decide) (by decide) (by decide)
  exact h.trans (by decide)

/-! ## Lemmas about Container Capture -/

/-- Characterisation of the selector loop: an accepted capture is the first
selector result that exists and exceeds the size threshold. -/
lemma firstAccepted_spec : ∀ (L : List (Option String)) (h : String),
    firstAccepted L = some h →
    ∃ i, i < L.length ∧ L[i]? = some (some h) ∧ 50 < h.length ∧
      ∀ j, j < i → ∀ s, L[j]? = some (some s) → ¬ 50 < s.length := by
  intro L
  induction L with
  | nil =>
    intro h hacc
    exact absurd hacc (by simp [firstAccepted])
  | cons o rest ih =>
    intro h hacc
    cases o with
    | none =>
      obtain ⟨i, hi, hget, hlen, hprev⟩ := ih h hacc
      refine ⟨i+1, by simpa using hi, by simpa using hget, hlen, ?_⟩
      intro j hj s hs
      cases j with
      | zero => simp at hs
      | succ m => exact hprev m (by omega) s (by simpa using hs)
    | some s0 =>
      by_cases h50 : 50 < s0.length
      · have hsh : some s0 = some h := by
          have hx := hacc
          simp only [firstAccepted, if_pos h50] at hx
          exact hx
        obtain rfl : s0 = h := Option.some.inj hsh
        refine ⟨0, by simp, by simp, h50, ?_⟩
        intro j hj
        exact absurd hj (by omega)
      · have hacc2 : firstAccepted rest = some h := by
          have hx := hacc
          simp only [firstAccepted, if_neg h50] at hx
          exact hx
        obtain ⟨i, hi, hget, hlen, hprev⟩ := ih h hacc2
        refine ⟨i+1, by simpa using hi, by simpa using hget, hlen, ?_⟩
        intro j hj s hs
        cases j with
        | zero =>
          have hss : s0 = s := by simpa using hs
          rw [← hss]
          exact h50
        | succ m => exact hprev m (by omega) s (by simpa using hs)

/-! ## Claim theorems: Container Capture -/

/-- C9: when a capture is accepted it is the first selector result that
exists and is non-trivially sized (more than 50 characters), and the
accepted capture is discarded for the synthesized wrapper exactly when the
enumerated tweet count is positive and the capture holds fewer than
`max 10 (count/4)` item tags. -/
theorem capture_accept_and_fallback (env : CaptureEnv) (h : String)
    (hacc : firstAccepted env.selHtml = some h) :
    (∃ i, i < env.selHtml.length ∧ env.selHtml[i]? = some (some h) ∧ 50 < h.length ∧
       ∀ j, j < i → ∀ s, env.selHtml[j]? = some (some s) → ¬ 50 < s.length)
    ∧ grab_entire_div_html env =
        (if 0 < env.tweets.length ∧ countSub "<article" h < max 10 (env.tweets.length / 4)
         then some (wrapperOf env.tweets) else some h) := by
  refine ⟨firstAccepted_spec env.selHtml h hacc, ?_⟩
  simp [grab_entire_div_html, hacc]

/-- C9 witness: a 60-character accepted capture holding two item tags while
fifty tweets are enumerated (threshold `max 10 12 = 12`) is discarded for
the synthesized wrapper. -/
theorem capture_accept_and_fallback_witness :
    grab_entire_div_html capEnvSparse = some (wrapperOf capEnvSparse.tweets) := by
  have h := (capture_accept_and_fallback capEnvSparse longCapture (by decide)).2
  have hcond : 0 < capEnvSparse.tweets.length
      ∧ countSub "<article" longCapture < max 10 (capEnvSparse.tweets.length / 4) := by
    constructor <;> decide
  rw [h, if_pos hcond]

/-! ## Lemmas about the Orchestrator aggregation -/

/-- The de-duplication pass depends on the seen-key accumulator only through
membership. -/
lemma pdDropDupAux_congr : ∀ (l : List AggRow) (s1 s2 : List (Option String)),
    (∀ x, x ∈ s1 ↔ x ∈ s2) → pdDropDupAux s1 l = pdDropDupAux s2 l := by
  intro l
  induction l with
  | nil => intro s1 s2 _; rfl
  | cons r rs ih =>
    intro s1 s2 h
    show (if r.record.tweet_id ∈ s1 then pdDropDupAux s1 rs
          else r :: pdDropDupAux (r.record.tweet_id :: s1) rs)
        = (if r.record.tweet_id ∈ s2 then pdDropDupAux s2 rs
          else r :: pdDropDupAux (r.record.tweet_id :: s2) rs)
    by_cases hm : r.record.tweet_id ∈ s1
    · rw [if_pos hm, if_pos ((h _).mp hm)]
      exact ih s1 s2 h
    · rw [if_neg hm, if_neg (fun hx => hm ((h _).mpr hx))]
      congr 1
      exact ih _ _ (fun x => by simp [List.mem_cons, h x])

/-- Marking a key as seen is the same as filtering every row with that key
out of the remainder. -/
lemma pdDropDupAux_filter (k : Option String) :
    ∀ (l : List AggRow) (seen : List (Option String)),
      pdDropDupAux (k :: seen) l
        = pdDropDupAux seen (l.filter (fun q => decide (q.record.tweet_id ≠ k))) := by
  intro l
  induction l with
  | nil => intro seen; rfl
  | cons r rs ih =>
    intro seen
    by_cases hk : r.record.tweet_id = k
    · have hf : (r :: rs).filter (fun q => decide (q.record.tweet_id ≠ k))
          = rs.filter (fun q => decide (q.record.tweet_id ≠ k)) := by
        simp [List.filter_cons, hk]
      rw [hf]
      show (if r.record.tweet_id ∈ k :: seen then pdDropDupAux (k :: seen) rs
            else r :: pdDropDupAux (r.record.tweet_id :: k :: seen) rs)
          = pdDropDupAux seen (rs.filter (fun q => decide (q.record.tweet_id ≠ k)))
      rw [if_pos (by simp [hk])]
      exact ih seen
    · have hf : (r :: rs).filter (fun q => decide (q.record.tweet_id ≠ k))
          = r :: rs.filter (fun q => decide (q.record.tweet_id ≠ k)) := by
        simp [List.filter_cons, hk]
      rw [hf]
      show (if r.record.tweet_id ∈ k :: seen then pdDropDupAux (k :: seen) rs
            else r :: pdDropDupAux (r.record.tweet_id :: k :: seen) rs)
          = (if r.record.tweet_id ∈ seen
            then pdDropDupAux seen (rs.filter (fun q => decide (q.record.tweet_id ≠ k)))
            else r :: pdDropDupAux (r.record.tweet_id :: seen)
                  (rs.filter (fun q => decide (q.record.tweet_id ≠ k))))
      by_cases hm : r.record.tweet_id ∈ seen
      · rw [if_pos (by simp [hm]), if_pos hm]
        exact ih seen
      · rw [if_neg (by simp [hk, hm]), if_neg hm]
        congr 1
        rw [pdDropDupAux_congr rs (r.record.tweet_id :: k :: seen)
            (k :: r.record.tweet_id :: seen)
            (fun x => by simp [List.mem_cons]; tauto)]
        exact ih (r.record.tweet_id :: seen)

/-- The pandas pass equals the specification-shaped first-occurrence
de-duplication. -/
lemma pdDropDup_eq_spec (l : List AggRow) : pdDropDupAux [] l = dedupByIdSpec l := by
  have H : ∀ (n : Nat) (l : List AggRow), l.length ≤ n →
      pdDropDupAux [] l = dedupByIdSpec l := by
    intro n
    induction n with
    | zero =>
      intro l hl
      cases l with
      | nil => simp only [dedupByIdSpec, pdDropDupAux]
      | cons r rs => simp at hl
    | succ n ih =>
      intro l hl
      cases l with
      | nil => simp only [dedupByIdSpec, pdDropDupAux]
      | cons r rs =>
        have hrs : rs.length ≤ n := by
          simp only [List.length_cons] at hl
          omega
        show (if r.record.tweet_id ∈ ([] : List (Option String)) then pdDropDupAux [] rs
              else r :: pdDropDupAux (r.record.tweet_id :: []) rs) = dedupByIdSpec (r :: rs)
        rw [if_neg (by simp)]
        rw [pdDropDupAux_filter r.record.tweet_id rs []]
        rw [ih (rs.filter (fun q => decide (q.record.tweet_id ≠ r.record.tweet_id)))
            (le_trans (List.length_filter_le _ _) hrs)]
        conv_rhs => rw [dedupByIdSpec]
  exact H l.length l (Nat.le_refl _)

/-! ## Claim theorems: Session Orchestrator -/

/-- C1 counterexample: two hashtags each contribute one record whose
`tweet_id` is absent; the records are distinct, yet the aggregate keeps only
the first — pandas `drop_duplicates` compares null keys as equal, refuting
the claim that id-less records are never deduplicated against each other. -/
theorem null_ids_deduped_cex :
    (runModel envTwoNullIds).saved = some [⟨extractRecord blkNoIdA, "alpha"⟩]
    ∧ (extractRecord blkNoIdA).tweet_id = none
    ∧ (extractRecord blkNoIdB).tweet_id = none
    ∧ extractRecord blkNoIdA ≠ extractRecord blkNoIdB := by
  refine ⟨by decide, by decide, by decide, by decide⟩

/-- C1 (amended): on every run that reaches aggregation, the persisted
dataset is the concatenation of the per-hashtag batches in processing order,
de-duplicated by `tweet_id` with the first occurrence kept, where records
with an absent id are also de-duplicated against each other (null keys
compare equal, so only the first id-less record survives). -/
theorem aggregate_dedup (env : RunEnv) (bs : List (List AggRow))
    (h1 : env.startOk = true) (h2 : env.preLoopRaises = false)
    (h3 : tagBatches env.tags = Except.ok bs) :
    (runModel env).saved = some (dedupByIdSpec bs.flatten) := by
  cases hq : env.quit with
  | ok =>
    cases bs with
    | nil => simp [runModel, h1, h2, h3, hq, closeModel, dedupByIdSpec]
    | cons b bs2 => simp [runModel, h1, h2, h3, hq, closeModel, pdDropDup_eq_spec]
  | raises =>
    cases bs with
    | nil => simp [runModel, h1, h2, h3, hq, closeModel, dedupByIdSpec]
    | cons b bs2 => simp [runModel, h1, h2, h3, hq, closeModel, pdDropDup_eq_spec]

/-- C1 witness: two hashtags sharing one item with identical `tweet_id` —
the aggregate holds exactly one copy, attributed to the hashtag processed
first. -/
theorem aggregate_dedup_witness :
    (runModel envSharedId).saved = some [⟨extractRecord blkWithId, "alpha"⟩] := by
  have h3 : tagBatches envSharedId.tags
      = Except.ok [[⟨extractRecord blkWithId, "alpha"⟩],
                   [⟨extractRecord blkWithId, "beta"⟩]] := rfl
  have h := aggregate_dedup envSharedId _ rfl rfl h3
  rw [h, ← pdDropDup_eq_spec]
  decide

/-- C3 counterexample: when `start_driver` raises, `run` propagates the
exception without ever invoking `close`, because `start_driver()` is called
before the `try/finally` block — refuting the claim that `close` runs on
every exit path including driver startup. -/
theorem close_skipped_on_start_failure_cex :
    (runModel envStartFails).closeInvoked = false
    ∧ (runModel envStartFails).raised = true :=
  ⟨rfl, rfl⟩

/-- C3 (amended): once `start_driver` has succeeded, `close` is invoked on
every exit path of `run` — normal completion or any raise inside the `try`
suite — and `close` itself never re-raises a driver-quit failure (the quit
call is guarded by a logging `except`).  When startup itself raises, `run`
propagates the exception without invoking `close` (no browser session was
handed over). -/
theorem close_on_every_exit :
    (∀ env : RunEnv, env.startOk = true → (runModel env).closeInvoked = true)
    ∧ (∀ (d : Bool) (q : QuitBehavior), closeModel d q = Except.ok ()) := by
  constructor
  · intro env h
    simp only [runModel, h, Bool.not_true]
    rw [if_neg (by simp)]
    split
    · rfl
    · split <;> rfl
  · intro d q
    cases d <;> cases q <;> rfl

/-- C3 witness: a run whose pre-loop step raises inside the `try` still has
`close` invoked. -/
theorem close_on_every_exit_witness :
    (runModel { startOk := true, preLoopRaises := true, tags := [],
                quit := QuitBehavior.raises }).closeInvoked = true :=
  close_on_every_exit.1 _ rfl
